import Mathlib

/-!
Verification of the automated job-application system.

The frontend (Next.js pages under frontend/app) and the backend HTML
templates are embedded directly from their sources.  The backend core —
Campaign Scheduler, Application Executor, Discovery Engine, Deduplication
Index and Quota Tracker — is not present in the repository sources, so it
is modelled from the specification (sections 3–7 of spec.md); each such
definition carries a doc comment starting with "Modelled from the spec:".
Timestamps are natural numbers; machine integers do not overflow in any
of the embedded computations.
-/

namespace Automated

/-! ## String helpers: JavaScript String.prototype.includes -/

/-- Whether the pattern occurs at the head of the character list. -/
def matchHere : List Char → List Char → Bool
  | [], _ => true
  | _ :: _, [] => false
  | p :: ps, c :: cs => p == c && matchHere ps cs

/-- Whether the pattern occurs anywhere in the character list. -/
def findSub (pat : List Char) : List Char → Bool
  | [] => pat.isEmpty
  | c :: cs => matchHere pat (c :: cs) || findSub pat cs

/-- JavaScript s.includes(sub): substring containment on strings. -/
def strIncludes (s sub : String) : Bool :=
  findSub sub.toList s.toList

/-! ## Auto-apply form submission (frontend/app/auto-apply/page.jsx) -/

/-- Form state of the auto-apply page (initial state at page.jsx lines 9-18). -/
structure AutoApplyForm where
  full_name : String
  email : String
  job_title : String
  location : String
  max_applications : Nat
  schedule_type : String
  frequency_days : Nat
  total_runs : Option Nat
deriving DecidableEq, Repr

/-- Location field appended to the backend FormData
(page.jsx line 37: formData.location or the string remote when falsy;
the location state is always a string, so falsy means empty). -/
def submittedLocation (fd : AutoApplyForm) : String :=
  if fd.location = "" then "remote" else fd.location

/-- Location field of the confirmation-email payload
(page.jsx line 83: same expression as the FormData field). -/
def confirmationLocation (fd : AutoApplyForm) : String :=
  if fd.location = "" then "remote" else fd.location

/-- Upper bound of the max-applications number input on the auto-apply page
(page.jsx line 266: the input carries max equal to 50). -/
def frontendMaxApplicationsPerRun : Nat := 50

/-! ## Dashboard filtering and sorting (frontend/app/dashboard/page.jsx) -/

/-- One application row as consumed by the dashboard; optional fields mirror
the optional chaining in the source. -/
structure Application where
  full_name : Option String
  job_title : Option String
  email : Option String
  status : String
  createdAt : Nat
deriving DecidableEq, Repr

/-- Case-insensitive containment of the search term in an optional field
(page.jsx lines 102-104: optional chaining yields no match for a missing
field). -/
def fieldMatches (term : String) (o : Option String) : Bool :=
  match o with
  | some s => strIncludes s.toLower term.toLower
  | none => false

/-- Search predicate of filterAndSortApplications (page.jsx lines 101-105). -/
def matchesSearch (term : String) (a : Application) : Bool :=
  fieldMatches term a.full_name || fieldMatches term a.job_title ||
    fieldMatches term a.email

/-- Comparator used for the name and job-title sort keys; localeCompare is
modelled as lexicographic string order (page.jsx lines 120-123). -/
def stringLe (x y : String) : Bool :=
  decide (x ≤ y)

/-- Filtering stage of filterAndSortApplications (page.jsx lines 99-111):
filter by search term when non-empty, then by status when the filter is not
the string all. -/
def dashFilter (apps : List Application) (searchTerm statusFilter : String) :
    List Application :=
  let f1 := if searchTerm ≠ "" then apps.filter (matchesSearch searchTerm) else apps
  if statusFilter ≠ "all" then f1.filter (fun a => a.status == statusFilter) else f1

/-- Sorting stage of filterAndSortApplications (page.jsx lines 114-127):
sort by the selected key; the default comparator returns zero, leaving the
list unchanged under a stable sort. -/
def dashSort (sortBy : String) (l : List Application) : List Application :=
  if sortBy = "newest" then
    l.mergeSort (fun a b => Nat.ble b.createdAt a.createdAt)
  else if sortBy = "oldest" then
    l.mergeSort (fun a b => Nat.ble a.createdAt b.createdAt)
  else if sortBy = "name" then
    l.mergeSort (fun a b => stringLe (a.full_name.getD "") (b.full_name.getD ""))
  else if sortBy = "job_title" then
    l.mergeSort (fun a b => stringLe (a.job_title.getD "") (b.job_title.getD ""))
  else l

/-- filterAndSortApplications (page.jsx lines 96-130). -/
def filterAndSortApplications (apps : List Application)
    (searchTerm statusFilter sortBy : String) : List Application :=
  dashSort sortBy (dashFilter apps searchTerm statusFilter)

/-! ## Monitoring dashboard email-log filter
(frontend/app/components/MonitoringDashboard.jsx) -/

/-- One email-log entry as consumed by the monitoring dashboard. -/
structure EmailLog where
  email_type : Option String
  type : Option String
  recipient_email : Option String
  subject : Option String
  status : Option String
deriving DecidableEq, Repr

/-- Containment check on an optional string; a missing field never matches
(the JavaScript guard with the logical-and operator). -/
def optIncludes (o : Option String) (needle : String) : Bool :=
  match o with
  | some s => strIncludes s needle
  | none => false

/-- Case-insensitive containment on an optional string: the source lowercases
the subject before checking. -/
def optIncludesLower (o : Option String) (needle : String) : Bool :=
  match o with
  | some s => strIncludes s.toLower needle
  | none => false

/-- isTestEmail (MonitoringDashboard.jsx lines 259-263). -/
def isTestEmail (log : EmailLog) : Bool :=
  log.email_type == some "test" || log.type == some "test" ||
    optIncludes log.recipient_email "test" ||
    optIncludesLower log.subject "test"

/-- The email logs actually rendered (MonitoringDashboard.jsx lines 255-266):
test emails are filtered out before mapping to rows. -/
def displayedEmailLogs (logs : List EmailLog) : List EmailLog :=
  logs.filter (fun log => !isTestEmail log)

/-! ## Campaign Scheduler state machine -/

/-- Modelled from the spec: campaign status (spec.md section 3, Campaign). -/
inductive CStatus
  | scheduled
  | running
  | completed
  | cancelled
  | error
deriving DecidableEq, Repr

/-- Modelled from the spec: schedule descriptor — once, or recurring with an
interval in days and an optional maximum number of runs (spec.md section 3). -/
inductive Schedule
  | once
  | recurring (intervalDays : Nat) (maxRuns : Option Nat)
deriving DecidableEq, Repr

/-- Modelled from the spec: the Campaign entity (spec.md section 3); fields
not needed by the state machine are omitted. -/
structure Campaign where
  id : Nat
  identity : String
  schedule : Schedule
  status : CStatus
  runCounter : Nat
  nextRun : Nat
  lastRun : Option Nat
  lastError : Option String
  cancelRequested : Bool
deriving DecidableEq, Repr

/-- Terminal statuses: completed, cancelled, error (spec.md section 4.3). -/
def isTerminal : CStatus → Bool
  | .completed => true
  | .cancelled => true
  | .error => true
  | _ => false

/-- Modelled from the spec: admission — a new Campaign starts scheduled with
its next run now and run counter zero (spec.md section 4.3). -/
def admitCampaign (id : Nat) (ident : String) (sched : Schedule) (now : Nat) : Campaign :=
  { id := id, identity := ident, schedule := sched, status := .scheduled,
    runCounter := 0, nextRun := now, lastRun := none, lastError := none,
    cancelRequested := false }

/-- Modelled from the spec: trigger — when the next-run time has arrived and
the status is scheduled, the scheduler marks the campaign running before
dispatch; any other status is left untouched (spec.md section 4.3). -/
def trigger (now : Nat) (c : Campaign) : Campaign :=
  if c.status = .scheduled ∧ c.nextRun ≤ now then { c with status := .running }
  else c

/-- Modelled from the spec: whether a successful run with the given new run
counter finishes the campaign — always for a one-shot schedule, when the
counter reaches the maximum for a bounded recurring schedule, never for an
unbounded one (spec.md section 4.3). -/
def runsExhausted (sched : Schedule) (counter : Nat) : Bool :=
  match sched with
  | .once => true
  | .recurring _ (some m) => m ≤ counter
  | .recurring _ none => false

/-- Modelled from the spec: completion of one executor pass for a running
campaign (spec.md sections 4.3 and 5).  A pending cancellation request is
finalized to cancelled once the in-flight run returns.  On success the run
counter is incremented and the campaign either completes or is rescheduled
one interval ahead; on systemic failure a one-shot campaign moves to error
while a recurring one records the error and is rescheduled. -/
def finishRun (now : Nat) (success : Bool) (msg : String) (c : Campaign) : Campaign :=
  if c.status = .running then
    if c.cancelRequested then { c with status := .cancelled }
    else if success then
      let counter := c.runCounter + 1
      if runsExhausted c.schedule counter then
        { c with status := .completed, runCounter := counter, lastRun := some now }
      else
        match c.schedule with
        | .once => { c with status := .completed, runCounter := counter, lastRun := some now }
        | .recurring i _ =>
            { c with status := .scheduled, runCounter := counter,
                     lastRun := some now, nextRun := now + i }
    else
      match c.schedule with
      | .once => { c with status := .error, lastError := some msg, lastRun := some now }
      | .recurring i _ =>
          { c with status := .scheduled, lastError := some msg,
                   lastRun := some now, nextRun := now + i }
  else c

/-- Result of a cancellation request (spec.md section 6 exposed surface). -/
inductive CancelResult
  | ok
  | notFound
  | alreadyTerminal
deriving DecidableEq, Repr

/-- Modelled from the spec: explicit cancellation — a scheduled campaign is
cancelled at once, a running one has a cooperative flag set and is finalized
when the run returns, a terminal one is rejected (spec.md sections 4.3, 5
and 6). -/
def requestCancel (c : Campaign) : CancelResult × Campaign :=
  match c.status with
  | .scheduled => (.ok, { c with status := .cancelled })
  | .running => (.ok, { c with cancelRequested := true })
  | _ => (.alreadyTerminal, c)

/-- One scheduler-visible operation on a campaign. -/
inductive Op
  | trig (now : Nat)
  | finish (now : Nat) (success : Bool) (msg : String)
  | cancel
deriving Repr

/-- Apply one operation to a campaign. -/
def applyOp (c : Campaign) : Op → Campaign
  | .trig now => trigger now c
  | .finish now s m => finishRun now s m c
  | .cancel => (requestCancel c).2

/-- Apply a sequence of operations. -/
def applyOps (ops : List Op) (c : Campaign) : Campaign :=
  ops.foldl applyOp c

/-- Modelled from the spec: cancel_campaign over a campaign store (spec.md
section 6): not-found when no campaign carries the id, already-terminal when
the campaign is terminal, ok otherwise, updating the stored campaign. -/
def cancelCampaign (store : List Campaign) (id : Nat) :
    CancelResult × List Campaign :=
  match store.find? (fun c => c.id == id) with
  | none => (.notFound, store)
  | some c =>
      ((requestCancel c).1,
        store.map (fun d => if d.id == id then (requestCancel d).2 else d))

/-- Status guard of the cancel button in the scheduled-jobs template
(scheduled_jobs.html line 256): the button is rendered unless the status
string is completed or cancelled. -/
def cancelButtonShown (status : String) : Bool :=
  !(status == "completed" || status == "cancelled")

/-! ## Quota Tracker -/

/-- Modelled from the spec: configured ceilings and window lengths of the
Quota Tracker (spec.md section 4.5). -/
structure QuotaLimits where
  daily : Nat
  weekly : Nat
  dayLen : Nat
  weekLen : Nat
deriving DecidableEq, Repr

/-- Default ceilings: 4 per day, 30 per week; windows of one day and one
week in seconds (spec.md section 4.5). -/
def defaultLimits : QuotaLimits :=
  { daily := 4, weekly := 30, dayLen := 86400, weekLen := 604800 }

/-- Modelled from the spec: per-identity rolling-window counters with their
window starts (spec.md section 3, QuotaCounter). -/
structure QuotaState where
  dayCount : Nat
  dayStart : Nat
  weekCount : Nat
  weekStart : Nat
deriving DecidableEq, Repr

/-- Fresh counters for a new identity. -/
def initialQuota (now : Nat) : QuotaState :=
  { dayCount := 0, dayStart := now, weekCount := 0, weekStart := now }

/-- Lazy reset of the day window when its boundary has been crossed. -/
def refreshDay (L : QuotaLimits) (now : Nat) (q : QuotaState) : QuotaState :=
  if q.dayStart + L.dayLen ≤ now then { q with dayCount := 0, dayStart := now }
  else q

/-- Lazy reset of the week window when its boundary has been crossed. -/
def refreshWeek (L : QuotaLimits) (now : Nat) (q : QuotaState) : QuotaState :=
  if q.weekStart + L.weekLen ≤ now then { q with weekCount := 0, weekStart := now }
  else q

/-- Modelled from the spec: lazy window-boundary evaluation — on any access,
a counter whose window has expired resets to zero before the request is
evaluated (spec.md sections 3 and 4.5). -/
def refresh (L : QuotaLimits) (now : Nat) (q : QuotaState) : QuotaState :=
  refreshWeek L now (refreshDay L now q)

/-- Whether both refreshed counters have headroom under the ceilings. -/
def hasHeadroom (L : QuotaLimits) (q : QuotaState) : Bool :=
  decide (q.dayCount < L.daily) && decide (q.weekCount < L.weekly)

/-- One granted unit in both windows. -/
def reserveOne (q : QuotaState) : QuotaState :=
  { q with dayCount := q.dayCount + 1, weekCount := q.weekCount + 1 }

/-- Modelled from the spec: try_reserve — grant one unit in both windows only
when both counters have headroom after lazy refresh, deny otherwise
(spec.md section 4.5). -/
def tryReserve (L : QuotaLimits) (now : Nat) (q : QuotaState) : Option QuotaState :=
  if hasHeadroom L (refresh L now q) then some (reserveOne (refresh L now q))
  else none

/-! ## Application Executor -/

/-- Modelled from the spec: per-candidate outcomes (spec.md section 3,
ApplicationRecord). -/
inductive Outcome
  | submitted
  | skippedDuplicate
  | skippedQuota
  | failed
deriving DecidableEq, Repr

/-- Modelled from the spec: an ApplicationRecord — campaign id, posting
fingerprint, identity and outcome (spec.md section 3). -/
structure AppRecord where
  campaign : Nat
  fp : Nat
  identity : String
  outcome : Outcome
deriving DecidableEq, Repr

/-- Whether an ApplicationRecord already exists for the pair. -/
def hasRecord (recs : List AppRecord) (cid fp : Nat) : Bool :=
  recs.any (fun r => r.campaign == cid && r.fp == fp)

/-- State threaded through one executor pass: the record store and the quota
counters of the campaign's identity. -/
structure ExecState where
  records : List AppRecord
  quota : QuotaState
deriving DecidableEq, Repr

/-- Modelled from the spec: processing of one candidate posting (spec.md
section 4.4).  An already-attempted pair is skipped without a new record;
a denied reservation records skipped-quota and stops the pass; otherwise the
reservation is committed on collaborator success (outcome submitted) or
released on collaborator failure (outcome failed).  The returned flag tells
whether the pass continues with further candidates. -/
def attemptOne (L : QuotaLimits) (now cid : Nat) (ident : String)
    (fp : Nat) (collabOk : Bool) (st : ExecState) : ExecState × Bool :=
  if hasRecord st.records cid fp then (st, true)
  else
    match tryReserve L now st.quota with
    | none =>
        ({ records := ⟨cid, fp, ident, .skippedQuota⟩ :: st.records,
           quota := refresh L now st.quota }, false)
    | some q' =>
        if collabOk then
          ({ records := ⟨cid, fp, ident, .submitted⟩ :: st.records,
             quota := q' }, true)
        else
          ({ records := ⟨cid, fp, ident, .failed⟩ :: st.records,
             quota := refresh L now st.quota }, true)

/-- Modelled from the spec: one executor pass over the candidate postings in
discovery order, each candidate given as its fingerprint with the oracle
outcome of the external collaborators; the pass stops once quota is
exhausted (spec.md section 4.4). -/
def runExec (L : QuotaLimits) (now cid : Nat) (ident : String) :
    List (Nat × Bool) → ExecState → ExecState
  | [], st => st
  | (fp, ok) :: rest, st =>
      let r := attemptOne L now cid ident fp ok st
      if r.2 then runExec L now cid ident rest r.1 else r.1

/-- Number of records stored for one (campaign, fingerprint) pair. -/
def pairCount (recs : List AppRecord) (cid fp : Nat) : Nat :=
  (recs.filter (fun r => r.campaign == cid && r.fp == fp)).length

/-- Number of submitted records stored for one (campaign, fingerprint)
pair. -/
def submittedForPair (recs : List AppRecord) (cid fp : Nat) : Nat :=
  ((recs.filter (fun r => r.campaign == cid && r.fp == fp)).filter
    (fun r => r.outcome == .submitted)).length

/-- Modelled from the spec: records are created exactly once per (campaign,
posting) pair attempted (spec.md section 3) — no two stored records share a
pair. -/
def uniquePairs : List AppRecord → Bool
  | [] => true
  | r :: rest => !hasRecord rest r.campaign r.fp && uniquePairs rest

/-- Number of submitted records in the store. -/
def submittedCount (recs : List AppRecord) : Nat :=
  (recs.filter (fun r => r.outcome == .submitted)).length

/-- Both counters within their ceilings. -/
def quotaInv (L : QuotaLimits) (q : QuotaState) : Prop :=
  q.dayCount ≤ L.daily ∧ q.weekCount ≤ L.weekly

/-! ## Discovery Engine -/

/-- Modelled from the spec: a Source Adapter maps a search query to either a
list of posting fingerprints or a fetch/parse error (spec.md sections 2
and 9); adapters are registered under a source name. -/
def Adapter : Type := String → Except String (List Nat)

/-- Fingerprints produced by the registered adapters for one query; a
failing adapter contributes nothing (spec.md section 4.2). -/
def adapterPostings : List (String × Adapter) → String → List Nat
  | [], _ => []
  | ad :: rest, q =>
      (match ad.2 q with
       | .ok fps => fps
       | .error _ => []) ++ adapterPostings rest q

/-- Per-adapter failures recorded for one query: each raising adapter is
caught and logged with its source name (spec.md section 4.2). -/
def adapterFailures : List (String × Adapter) → String → List (String × String)
  | [], _ => []
  | ad :: rest, q =>
      (match ad.2 q with
       | .ok _ => []
       | .error e => [(ad.1, e)]) ++ adapterFailures rest q

/-- Modelled from the spec: passing discovered fingerprints through the
Deduplication Index — only novel fingerprints are stored and counted
(spec.md section 4.2). -/
def integrate : List Nat → List Nat → Nat → Nat × List Nat
  | [], seen, count => (count, seen)
  | fp :: rest, seen, count =>
      if seen.contains fp then integrate rest seen count
      else integrate rest (fp :: seen) (count + 1)

/-- New-posting count and updated index after all queries, ignoring the
failure log. -/
def discoverCore (adapters : List (String × Adapter)) :
    List String → Nat → List Nat → Nat × List Nat
  | [], count, seen => (count, seen)
  | q :: qs, count, seen =>
      discoverCore adapters qs
        (integrate (adapterPostings adapters q) seen count).1
        (integrate (adapterPostings adapters q) seen count).2

/-- Per-adapter failures accumulated over all queries. -/
def flatFailures (adapters : List (String × Adapter)) :
    List String → List (String × String)
  | [] => []
  | q :: qs => adapterFailures adapters q ++ flatFailures adapters qs

/-- Recursion of discover over the queries, threading the new-posting count,
the deduplication index and the per-adapter failure log. -/
def discoverAux (adapters : List (String × Adapter)) :
    List String → Nat → List Nat → List (String × String) →
    Nat × List Nat × List (String × String)
  | [], count, seen, errs => (count, seen, errs)
  | q :: qs, count, seen, errs =>
      discoverAux adapters qs
        (integrate (adapterPostings adapters q) seen count).1
        (integrate (adapterPostings adapters q) seen count).2
        (errs ++ adapterFailures adapters q)

/-- Modelled from the spec: discover fans the queries out across all
registered adapters, isolates per-adapter failures, deduplicates and returns
the count of new postings together with the updated index and the failure
log (spec.md section 4.2). -/
def discover (adapters : List (String × Adapter)) (queries : List String)
    (seen : List Nat) : Nat × List Nat × List (String × String) :=
  discoverAux adapters queries 0 seen []

/-! ## Scheduler lemmas -/

/-- No operation moves a campaign out of a terminal status. -/
theorem applyOp_terminal (c : Campaign) (op : Op)
    (h : isTerminal c.status = true) : applyOp c op = c := by
  cases op <;> cases hs : c.status <;>
    simp_all [applyOp, trigger, finishRun, requestCancel, isTerminal]

/-- No operation sequence moves a campaign out of a terminal status. -/
theorem applyOps_terminal (ops : List Op) (c : Campaign)
    (h : isTerminal c.status = true) : applyOps ops c = c := by
  induction ops with
  | nil => rfl
  | cons op rest ih =>
      show applyOps rest (applyOp c op) = c
      rw [applyOp_terminal c op h, ih]

/-- Scheduler operations never change the schedule descriptor. -/
theorem applyOp_schedule (c : Campaign) (op : Op) :
    (applyOp c op).schedule = c.schedule := by
  cases op with
  | trig now =>
      simp only [applyOp, trigger]
      split <;> rfl
  | finish now s msg =>
      simp only [applyOp, finishRun]
      split
      · split
        · rfl
        · split
          · split
            · rfl
            · split <;> rfl
          · split <;> rfl
      · rfl
  | cancel =>
      simp only [applyOp, requestCancel]
      cases c.status <;> rfl

/-- C1: A campaign in a terminal status (completed, cancelled or error) is
never changed by a trigger, a run completion or an explicit cancellation
request; in particular the cancellation of an error campaign is rejected as
already-terminal and leaves the campaign unchanged. -/
theorem terminal_no_transition (c : Campaign) (now : Nat) (s : Bool) (m : String)
    (h : isTerminal c.status = true) :
    trigger now c = c ∧ finishRun now s m c = c ∧
      requestCancel c = (CancelResult.alreadyTerminal, c) := by
  refine ⟨?_, ?_, ?_⟩ <;> cases hs : c.status <;>
    simp_all [trigger, finishRun, requestCancel, isTerminal]

/-- A concrete campaign stuck in status error. -/
def errCamp : Campaign :=
  { id := 9, identity := "user@example.com", schedule := .once,
    status := .error, runCounter := 1, nextRun := 0, lastRun := some 3,
    lastError := some "boom", cancelRequested := false }

theorem terminal_no_transition_witness :
    isTerminal errCamp.status = true ∧
    (trigger 5 errCamp = errCamp ∧ finishRun 5 true "" errCamp = errCamp ∧
      requestCancel errCamp = (CancelResult.alreadyTerminal, errCamp)) :=
  ⟨by decide, terminal_no_transition errCamp 5 true "" (by decide)⟩

/-- C7: cancel_campaign distinguishes exactly three outcomes — not-found when
no stored campaign carries the id, already-terminal when the campaign is in
a terminal status, ok otherwise. -/
theorem cancelCampaign_trichotomy (store : List Campaign) (id : Nat) :
    (store.find? (fun c => c.id == id) = none →
      cancelCampaign store id = (.notFound, store)) ∧
    (∀ c, store.find? (fun c => c.id == id) = some c →
      (isTerminal c.status = true →
        (cancelCampaign store id).1 = .alreadyTerminal) ∧
      (isTerminal c.status = false → (cancelCampaign store id).1 = .ok)) := by
  constructor
  · intro h
    simp [cancelCampaign, h]
  · intro c h
    constructor
    · intro ht
      cases hs : c.status <;>
        simp_all [cancelCampaign, requestCancel, isTerminal]
    · intro ht
      cases hs : c.status <;>
        simp_all [cancelCampaign, requestCancel, isTerminal]

/-- A concrete scheduled campaign. -/
def schedCamp : Campaign :=
  { id := 1, identity := "a@example.com", schedule := .once,
    status := .scheduled, runCounter := 0, nextRun := 0, lastRun := none,
    lastError := none, cancelRequested := false }

/-- A concrete completed campaign. -/
def doneCamp : Campaign :=
  { id := 2, identity := "b@example.com", schedule := .once,
    status := .completed, runCounter := 1, nextRun := 0, lastRun := some 1,
    lastError := none, cancelRequested := false }

theorem cancelCampaign_trichotomy_witness :
    cancelCampaign [schedCamp, doneCamp] 3 = (.notFound, [schedCamp, doneCamp]) ∧
    (cancelCampaign [schedCamp, doneCamp] 2).1 = .alreadyTerminal ∧
    (cancelCampaign [schedCamp, doneCamp] 1).1 = .ok :=
  ⟨(cancelCampaign_trichotomy [schedCamp, doneCamp] 3).1 (by decide),
   ((cancelCampaign_trichotomy [schedCamp, doneCamp] 2).2 doneCamp (by decide)).1
     (by decide),
   ((cancelCampaign_trichotomy [schedCamp, doneCamp] 1).2 schedCamp (by decide)).2
     (by decide)⟩

/-- C3: A one-shot campaign that is due and triggered reaches completed (on a
successful run) or error (on a failed run) after that single trigger, and no
subsequent operation sequence ever returns it to scheduled. -/
theorem once_completes_after_one_trigger (c : Campaign) (t1 t2 : Nat) (s : Bool)
    (m : String) (ops : List Op)
    (hsched : c.schedule = .once) (hstat : c.status = .scheduled)
    (hdue : c.nextRun ≤ t1) (hcr : c.cancelRequested = false) :
    ((finishRun t2 s m (trigger t1 c)).status = .completed ∨
      (finishRun t2 s m (trigger t1 c)).status = .error) ∧
    (applyOps ops (finishRun t2 s m (trigger t1 c))).status ≠ .scheduled := by
  have htr : trigger t1 c = { c with status := .running } := by
    simp [trigger, hstat, hdue]
  have hfin : (finishRun t2 s m (trigger t1 c)).status =
      (if s then CStatus.completed else CStatus.error) := by
    rw [htr]
    cases s <;> simp [finishRun, hcr, hsched, runsExhausted]
  have hterm : isTerminal (finishRun t2 s m (trigger t1 c)).status = true := by
    rw [hfin]
    cases s <;> simp [isTerminal]
  refine ⟨?_, ?_⟩
  · rw [hfin]
    cases s <;> simp
  · rw [applyOps_terminal ops _ hterm, hfin]
    cases s <;> simp

theorem once_completes_after_one_trigger_witness :
    ((finishRun 2 true "" (trigger 1 schedCamp)).status = .completed ∨
      (finishRun 2 true "" (trigger 1 schedCamp)).status = .error) ∧
    (applyOps [Op.trig 3, Op.cancel] (finishRun 2 true "" (trigger 1 schedCamp))).status ≠
      .scheduled :=
  once_completes_after_one_trigger schedCamp 1 2 true "" [Op.trig 3, Op.cancel]
    (by decide) (by decide) (by decide) (by decide)

/-- Inductive invariant for a bounded recurring campaign: the counter stays
under the bound, and once the bound is reached the campaign can no longer be
scheduled or running. -/
def boundedInv (i m : Nat) (c : Campaign) : Prop :=
  c.schedule = .recurring i (some m) ∧ c.runCounter ≤ m ∧
    (c.runCounter = m → c.status ≠ .scheduled ∧ c.status ≠ .running)

/-- The bounded-recurring invariant is preserved by every operation. -/
theorem boundedInv_applyOp (i m : Nat) (c : Campaign) (op : Op)
    (h : boundedInv i m c) : boundedInv i m (applyOp c op) := by
  obtain ⟨hsch, hle, hmax⟩ := h
  refine ⟨by rw [applyOp_schedule]; exact hsch, ?_⟩
  cases op with
  | trig now =>
      simp only [applyOp, trigger]
      split
      · next hcond =>
          have hne : c.runCounter ≠ m := fun he => (hmax he).1 hcond.1
          exact ⟨hle, fun he => absurd he hne⟩
      · exact ⟨hle, hmax⟩
  | finish now s msg =>
      simp only [applyOp, finishRun]
      split
      · next hrun =>
          have hne : c.runCounter ≠ m := fun he => (hmax he).2 hrun
          have hlt : c.runCounter < m := Nat.lt_of_le_of_ne hle hne
          split
          · exact ⟨hle, fun he => absurd he hne⟩
          · split
            · rw [hsch]
              simp only [runsExhausted]
              split
              · next hdone => exact ⟨hlt, fun _ => by simp⟩
              · next hnot =>
                  have h2 : ¬ m ≤ c.runCounter + 1 := by simpa using hnot
                  exact ⟨hlt, fun he => absurd (Nat.le_of_eq (Eq.symm he)) h2⟩
            · rw [hsch]
              exact ⟨hle, fun he => absurd he hne⟩
      · exact ⟨hle, hmax⟩
  | cancel =>
      simp only [applyOp, requestCancel]
      cases hs : c.status <;> simp only
      · exact ⟨hle, fun _ => by simp⟩
      · exact ⟨hle, fun he => absurd hs (hmax he).2⟩
      · exact ⟨hle, hmax⟩
      · exact ⟨hle, hmax⟩
      · exact ⟨hle, hmax⟩

/-- The bounded-recurring invariant is preserved by operation sequences. -/
theorem boundedInv_applyOps (i m : Nat) (ops : List Op) (c : Campaign)
    (h : boundedInv i m c) : boundedInv i m (applyOps ops c) := by
  induction ops generalizing c with
  | nil => exact h
  | cons op rest ih =>
      exact ih (applyOp c op) (boundedInv_applyOp i m c op h)

/-- Inductive invariant for an unbounded recurring campaign: it is never
completed. -/
def unboundedInv (i : Nat) (c : Campaign) : Prop :=
  c.schedule = .recurring i none ∧ c.status ≠ .completed

/-- The unbounded-recurring invariant is preserved by every operation. -/
theorem unboundedInv_applyOp (i : Nat) (c : Campaign) (op : Op)
    (h : unboundedInv i c) : unboundedInv i (applyOp c op) := by
  obtain ⟨hsch, hnc⟩ := h
  refine ⟨by rw [applyOp_schedule]; exact hsch, ?_⟩
  cases op with
  | trig now =>
      simp only [applyOp, trigger]
      split
      · simp
      · exact hnc
  | finish now s msg =>
      simp only [applyOp, finishRun]
      split
      · split
        · simp
        · split
          · rw [hsch]
            simp [runsExhausted]
          · rw [hsch]
            simp
      · exact hnc
  | cancel =>
      simp only [applyOp, requestCancel]
      cases hs : c.status <;> simp_all

/-- The unbounded-recurring invariant is preserved by operation sequences. -/
theorem unboundedInv_applyOps (i : Nat) (ops : List Op) (c : Campaign)
    (h : unboundedInv i c) : unboundedInv i (applyOps ops c) := by
  induction ops generalizing c with
  | nil => exact h
  | cons op rest ih =>
      exact ih (applyOp c op) (unboundedInv_applyOp i c op h)

/-- C6: For a recurring campaign admitted with a positive maximum number of
runs, the run counter never exceeds that maximum in any reachable state; a
successful run of such a campaign completes it exactly when the incremented
counter reaches the maximum; a recurring campaign without a maximum is
rescheduled after every successful run and never reaches completed, so it
runs until cancelled. -/
theorem recurring_max_runs (idn : Nat) (ident : String) (i m t0 : Nat)
    (ops : List Op) (hm : 1 ≤ m) :
    (applyOps ops (admitCampaign idn ident (.recurring i (some m)) t0)).runCounter ≤ m ∧
    (∀ d now msg, d.status = .running → d.cancelRequested = false →
        d.schedule = .recurring i (some m) → d.runCounter + 1 ≤ m →
        ((finishRun now true msg d).status = .completed ↔ d.runCounter + 1 = m)) ∧
    (∀ d now msg, d.status = .running → d.cancelRequested = false →
        d.schedule = .recurring i none →
        (finishRun now true msg d).status = .scheduled) ∧
    (∀ ops2 idn2 t2,
        (applyOps ops2 (admitCampaign idn2 ident (.recurring i none) t2)).status ≠
          .completed) := by
  refine ⟨?_, ?_, ?_, ?_⟩
  · have h0 : boundedInv i m (admitCampaign idn ident (.recurring i (some m)) t0) := by
      refine ⟨rfl, Nat.zero_le m, fun he => absurd he ?_⟩
      simp only [admitCampaign]
      omega
    exact (boundedInv_applyOps i m ops _ h0).2.1
  · intro d now msg hrun hcr hsch hbound
    by_cases hd : m ≤ d.runCounter + 1
    · simp [finishRun, hrun, hcr, hsch, runsExhausted, hd]
      omega
    · simp [finishRun, hrun, hcr, hsch, runsExhausted, hd]
      omega
  · intro d now msg hrun hcr hsch
    simp [finishRun, hrun, hcr, hsch, runsExhausted]
  · intro ops2 idn2 t2
    have h0 : unboundedInv i (admitCampaign idn2 ident (.recurring i none) t2) :=
      ⟨rfl, by simp [admitCampaign]⟩
    exact (unboundedInv_applyOps i ops2 _ h0).2

/-- A concrete running bounded-recurring campaign one run short of its
maximum. -/
def runCamp : Campaign :=
  { id := 3, identity := "c@example.com", schedule := .recurring 7 (some 2),
    status := .running, runCounter := 1, nextRun := 0, lastRun := some 0,
    lastError := none, cancelRequested := false }

theorem recurring_max_runs_witness :
    (applyOps [Op.trig 0, Op.finish 1 true "", Op.trig 8, Op.finish 9 true ""]
        (admitCampaign 4 "c@example.com" (.recurring 7 (some 2)) 0)).runCounter ≤ 2 ∧
    ((finishRun 9 true "" runCamp).status = .completed ↔ runCamp.runCounter + 1 = 2) :=
  ⟨(recurring_max_runs 4 "c@example.com" 7 2 0
      [Op.trig 0, Op.finish 1 true "", Op.trig 8, Op.finish 9 true ""]
      (by decide)).1,
   (recurring_max_runs 4 "c@example.com" 7 2 0 [] (by decide)).2.1 runCamp 9 ""
      (by decide) (by decide) (by decide) (by decide)⟩

/-! ## Quota Tracker lemmas -/

/-- Lazy refresh keeps each counter at its old value or resets it to zero,
so it preserves the ceilings. -/
theorem refresh_quotaInv (L : QuotaLimits) (now : Nat) (q : QuotaState)
    (h : quotaInv L q) : quotaInv L (refresh L now q) := by
  obtain ⟨h1, h2⟩ := h
  unfold refresh refreshWeek refreshDay
  split <;> split <;> exact ⟨by simp_all, by simp_all⟩

/-- A granted reservation satisfies the ceilings: it is granted only with
strict headroom in both windows. -/
theorem tryReserve_quotaInv (L : QuotaLimits) (now : Nat) (q q' : QuotaState)
    (h : tryReserve L now q = some q') : quotaInv L q' := by
  unfold tryReserve at h
  split at h
  · next hh =>
      obtain ⟨hd, hw⟩ :
          (refresh L now q).dayCount < L.daily ∧
            (refresh L now q).weekCount < L.weekly := by
        simpa [hasHeadroom] using hh
      cases h
      exact ⟨hd, hw⟩
  · exact absurd h (by simp)

/-- One candidate attempt preserves the quota ceilings. -/
theorem attemptOne_quotaInv (L : QuotaLimits) (now cid : Nat) (ident : String)
    (fp : Nat) (ok : Bool) (st : ExecState) (h : quotaInv L st.quota) :
    quotaInv L (attemptOne L now cid ident fp ok st).1.quota := by
  unfold attemptOne
  split
  · exact h
  · split
    · next hres => exact refresh_quotaInv L now st.quota h
    · next q' hres =>
        split
        · exact tryReserve_quotaInv L now st.quota q' hres
        · exact refresh_quotaInv L now st.quota h

/-- An executor pass preserves the quota ceilings. -/
theorem runExec_quotaInv (L : QuotaLimits) (now cid : Nat) (ident : String)
    (cands : List (Nat × Bool)) (st : ExecState) (h : quotaInv L st.quota) :
    quotaInv L (runExec L now cid ident cands st).quota := by
  induction cands generalizing st with
  | nil => exact h
  | cons p rest ih =>
      obtain ⟨fp, ok⟩ := p
      simp only [runExec]
      have hq := attemptOne_quotaInv L now cid ident fp ok st h
      split
      · exact ih _ hq
      · exact hq

/-- C2: The refreshed counters of an identity never exceed the configured
ceilings in any state an executor pass can produce (defaults 4 per day and
30 per week), and an attempt made without headroom in either window records
skipped-quota, stops the pass, adds no submitted record and leaves the
counters unconsumed — even though the frontend form accepts a per-run cap
of up to 50. -/
theorem quota_never_exceeds_ceilings (L : QuotaLimits) (now cid : Nat)
    (ident : String) (cands : List (Nat × Bool)) (st : ExecState)
    (fp : Nat) (ok : Bool) (h : quotaInv L st.quota) :
    quotaInv L (runExec L now cid ident cands st).quota ∧
    (hasHeadroom L (refresh L now st.quota) = false →
      hasRecord st.records cid fp = false →
      (attemptOne L now cid ident fp ok st).1.records =
        ⟨cid, fp, ident, .skippedQuota⟩ :: st.records ∧
      (attemptOne L now cid ident fp ok st).1.quota = refresh L now st.quota ∧
      (attemptOne L now cid ident fp ok st).2 = false ∧
      submittedCount (attemptOne L now cid ident fp ok st).1.records =
        submittedCount st.records) ∧
    (defaultLimits.daily = 4 ∧ defaultLimits.weekly = 30 ∧
      frontendMaxApplicationsPerRun = 50) := by
  refine ⟨runExec_quotaInv L now cid ident cands st h, ?_, by decide, by decide,
    by decide⟩
  intro hnh hrec
  have hres : tryReserve L now st.quota = none := by
    unfold tryReserve
    simp [hnh]
  simp [attemptOne, hrec, hres, submittedCount]

/-- A concrete quota state with the daily window full under the default
limits. -/
def fullDayQuota : QuotaState :=
  { dayCount := 4, dayStart := 100, weekCount := 10, weekStart := 100 }

/-- A concrete executor state holding one prior record and a full daily
window. -/
def fullExecState : ExecState :=
  { records := [⟨1, 5, "a@example.com", .submitted⟩], quota := fullDayQuota }

theorem quota_never_exceeds_ceilings_witness :
    quotaInv defaultLimits
      (runExec defaultLimits 200 1 "a@example.com" [(6, true)] fullExecState).quota ∧
    ((attemptOne defaultLimits 200 1 "a@example.com" 6 true fullExecState).1.records =
        ⟨1, 6, "a@example.com", .skippedQuota⟩ :: fullExecState.records ∧
      (attemptOne defaultLimits 200 1 "a@example.com" 6 true fullExecState).1.quota =
        refresh defaultLimits 200 fullExecState.quota ∧
      (attemptOne defaultLimits 200 1 "a@example.com" 6 true fullExecState).2 = false ∧
      submittedCount
          (attemptOne defaultLimits 200 1 "a@example.com" 6 true fullExecState).1.records =
        submittedCount fullExecState.records) :=
  ⟨(quota_never_exceeds_ceilings defaultLimits 200 1 "a@example.com" [(6, true)]
      fullExecState 6 true (by constructor <;> decide)).1,
   (quota_never_exceeds_ceilings defaultLimits 200 1 "a@example.com" [(6, true)]
      fullExecState 6 true (by constructor <;> decide)).2.1 (by decide) (by decide)⟩

/-! ## Application Executor at-most-once lemmas -/

/-- A pair with no stored record has pair count zero. -/
theorem pairCount_eq_zero_of_hasRecord_false (recs : List AppRecord)
    (cid fp : Nat) (h : hasRecord recs cid fp = false) :
    pairCount recs cid fp = 0 := by
  induction recs with
  | nil => rfl
  | cons r rest ih =>
      simp only [hasRecord, List.any_cons, Bool.or_eq_false_iff] at h
      obtain ⟨h1, h2⟩ := h
      simp only [pairCount, List.filter_cons, h1]
      exact ih (by simpa [hasRecord] using h2)

/-- Under the unique-pairs invariant, every pair holds at most one record. -/
theorem pairCount_le_one_of_uniquePairs (recs : List AppRecord)
    (h : uniquePairs recs = true) : ∀ c f, pairCount recs c f ≤ 1 := by
  induction recs with
  | nil => intro c f; simp [pairCount]
  | cons r rest ih =>
      simp only [uniquePairs, Bool.and_eq_true, Bool.not_eq_true'] at h
      obtain ⟨h1, h2⟩ := h
      intro c f
      by_cases hm : (r.campaign == c && r.fp == f) = true
      · obtain ⟨hc, hf⟩ : r.campaign = c ∧ r.fp = f := by simpa using hm
        have hz : pairCount rest c f = 0 := by
          have h3 := pairCount_eq_zero_of_hasRecord_false rest r.campaign r.fp h1
          rwa [hc, hf] at h3
        simp only [pairCount] at hz ⊢
        simp [List.filter_cons, hm, hz]
      · have hm' : (r.campaign == c && r.fp == f) = false := by simpa using hm
        have hrest := ih h2 c f
        simp only [pairCount] at hrest ⊢
        simp [List.filter_cons, hm', hrest]

/-- Adding a record for a previously unattempted pair preserves the
unique-pairs invariant. -/
theorem uniquePairs_cons (recs : List AppRecord) (nr : AppRecord)
    (h0 : hasRecord recs nr.campaign nr.fp = false)
    (h : uniquePairs recs = true) : uniquePairs (nr :: recs) = true := by
  simp [uniquePairs, h0, h]

/-- One candidate attempt preserves the unique-pairs invariant. -/
theorem attemptOne_uniquePairs (L : QuotaLimits) (now cid : Nat)
    (ident : String) (fp : Nat) (ok : Bool) (st : ExecState)
    (h : uniquePairs st.records = true) :
    uniquePairs (attemptOne L now cid ident fp ok st).1.records = true := by
  unfold attemptOne
  split
  · exact h
  · next hrec =>
      rw [Bool.not_eq_true] at hrec
      split
      · exact uniquePairs_cons st.records ⟨cid, fp, ident, .skippedQuota⟩ hrec h
      · split
        · exact uniquePairs_cons st.records ⟨cid, fp, ident, .submitted⟩ hrec h
        · exact uniquePairs_cons st.records ⟨cid, fp, ident, .failed⟩ hrec h

/-- An executor pass preserves the unique-pairs invariant. -/
theorem runExec_uniquePairs (L : QuotaLimits) (now cid : Nat) (ident : String)
    (cands : List (Nat × Bool)) (st : ExecState)
    (h : uniquePairs st.records = true) :
    uniquePairs (runExec L now cid ident cands st).records = true := by
  induction cands generalizing st with
  | nil => exact h
  | cons p rest ih =>
      obtain ⟨fp, ok⟩ := p
      simp only [runExec]
      have hq := attemptOne_uniquePairs L now cid ident fp ok st h
      split
      · exact ih _ hq
      · exact hq

/-- C4: From a record store in which every (campaign, fingerprint) pair holds
at most one record, an executor pass keeps at most one record — hence at
most one submitted record — for every pair, and a pass over candidates whose
pairs have all been attempted before leaves the state completely unchanged
(the executor is idempotent on already-attempted pairs). -/
theorem at_most_once_submitted (L : QuotaLimits) (now cid : Nat)
    (ident : String) (cands : List (Nat × Bool)) (st : ExecState)
    (h : uniquePairs st.records = true) :
    (∀ c f, submittedForPair (runExec L now cid ident cands st).records c f ≤ 1) ∧
    ((∀ p ∈ cands, hasRecord st.records cid p.1 = true) →
      runExec L now cid ident cands st = st) := by
  constructor
  · intro c f
    have h1 := pairCount_le_one_of_uniquePairs _
      (runExec_uniquePairs L now cid ident cands st h) c f
    calc submittedForPair (runExec L now cid ident cands st).records c f
        ≤ pairCount (runExec L now cid ident cands st).records c f :=
          List.length_filter_le _ _
      _ ≤ 1 := h1
  · intro hall
    induction cands with
    | nil => rfl
    | cons p rest ih =>
        obtain ⟨fp, ok⟩ := p
        have hrec : hasRecord st.records cid fp = true := hall (fp, ok) (by simp)
        simp only [runExec, attemptOne, hrec, if_pos rfl]
        exact ih (fun q hq => hall q (List.mem_cons_of_mem _ hq))

/-- A concrete record store holding one submitted record for pair (1, 5). -/
def oneRecStore : ExecState :=
  { records := [⟨1, 5, "a@example.com", .submitted⟩],
    quota := initialQuota 0 }

theorem at_most_once_submitted_witness :
    submittedForPair
        (runExec defaultLimits 10 1 "a@example.com" [(5, true)] oneRecStore).records
        1 5 ≤ 1 ∧
    runExec defaultLimits 10 1 "a@example.com" [(5, true)] oneRecStore = oneRecStore :=
  ⟨(at_most_once_submitted defaultLimits 10 1 "a@example.com" [(5, true)]
      oneRecStore (by decide)).1 1 5,
   (at_most_once_submitted defaultLimits 10 1 "a@example.com" [(5, true)]
      oneRecStore (by decide)).2 (by decide)⟩

/-! ## Discovery Engine lemmas -/

/-- Fingerprint collection distributes over adapter-list concatenation. -/
theorem adapterPostings_append (l1 l2 : List (String × Adapter)) (q : String) :
    adapterPostings (l1 ++ l2) q = adapterPostings l1 q ++ adapterPostings l2 q := by
  induction l1 with
  | nil => rfl
  | cons ad rest ih =>
      simp only [List.cons_append, adapterPostings, List.append_eq, ih, List.append_assoc]

/-- Failure collection distributes over adapter-list concatenation. -/
theorem adapterFailures_append (l1 l2 : List (String × Adapter)) (q : String) :
    adapterFailures (l1 ++ l2) q = adapterFailures l1 q ++ adapterFailures l2 q := by
  induction l1 with
  | nil => rfl
  | cons ad rest ih =>
      simp only [List.cons_append, adapterFailures, List.append_eq, ih, List.append_assoc]

/-- A failing adapter contributes no fingerprints. -/
theorem adapterPostings_middle_error (pre post : List (String × Adapter))
    (name : String) (f : Adapter) (q : String) (e : String)
    (hf : f q = .error e) :
    adapterPostings (pre ++ (name, f) :: post) q =
      adapterPostings (pre ++ post) q := by
  rw [adapterPostings_append, adapterPostings_append]
  simp only [adapterPostings, hf, List.nil_append]

/-- A failing adapter contributes exactly one failure entry under its source
name, leaving the other adapters' entries in place. -/
theorem adapterFailures_middle_error (pre post : List (String × Adapter))
    (name : String) (f : Adapter) (q : String) (e : String)
    (hf : f q = .error e) :
    adapterFailures (pre ++ (name, f) :: post) q =
      adapterFailures pre q ++ (name, e) :: adapterFailures post q := by
  rw [adapterFailures_append]
  simp only [adapterFailures, hf, List.singleton_append]

/-- The failure log of the discovery recursion is the accumulator followed by
the per-query failures, and the count and index do not depend on the
accumulated log. -/
theorem discoverAux_eq (adapters : List (String × Adapter)) (qs : List String)
    (count : Nat) (seen : List Nat) (errs : List (String × String)) :
    discoverAux adapters qs count seen errs =
      ((discoverCore adapters qs count seen).1,
        (discoverCore adapters qs count seen).2,
        errs ++ flatFailures adapters qs) := by
  induction qs generalizing count seen errs with
  | nil => simp [discoverAux, discoverCore, flatFailures]
  | cons q rest ih =>
      simp only [discoverAux, discoverCore, flatFailures, ih, List.append_assoc]

/-- An everywhere-failing adapter does not change the count or the index. -/
theorem discoverCore_middle_error (pre post : List (String × Adapter))
    (name : String) (f : Adapter) (emsg : String → String) (qs : List String)
    (count : Nat) (seen : List Nat)
    (hfail : ∀ q ∈ qs, f q = .error (emsg q)) :
    discoverCore (pre ++ (name, f) :: post) qs count seen =
      discoverCore (pre ++ post) qs count seen := by
  induction qs generalizing count seen with
  | nil => rfl
  | cons q rest ih =>
      have hq := hfail q (by simp)
      simp only [discoverCore,
        adapterPostings_middle_error pre post name f q (emsg q) hq]
      exact ih _ _ (fun p hp => hfail p (List.mem_cons_of_mem _ hp))

/-- C5: If one registered Source Adapter raises a fetch/parse error on every
query of a discovery run, discover still completes, its new-posting count
and deduplication index are exactly those produced by the remaining
adapters, its failure log is precisely the per-adapter failures of all
queries, and on each query the failing adapter contributes exactly one
logged failure under its source name without disturbing the entries of the
other adapters. -/
theorem discover_adapter_isolation (pre post : List (String × Adapter))
    (name : String) (f : Adapter) (emsg : String → String)
    (queries : List String) (seen : List Nat)
    (hfail : ∀ q ∈ queries, f q = .error (emsg q)) :
    (discover (pre ++ (name, f) :: post) queries seen).1 =
      (discover (pre ++ post) queries seen).1 ∧
    (discover (pre ++ (name, f) :: post) queries seen).2.1 =
      (discover (pre ++ post) queries seen).2.1 ∧
    (discover (pre ++ (name, f) :: post) queries seen).2.2 =
      flatFailures (pre ++ (name, f) :: post) queries ∧
    (∀ q ∈ queries, adapterFailures (pre ++ (name, f) :: post) q =
      adapterFailures pre q ++ (name, emsg q) :: adapterFailures post q) := by
  unfold discover
  rw [discoverAux_eq, discoverAux_eq,
    discoverCore_middle_error pre post name f emsg queries 0 seen hfail]
  refine ⟨rfl, rfl, by simp, ?_⟩
  intro q hq
  exact adapterFailures_middle_error pre post name f q (emsg q)
    (hfail q hq)

/-- A concrete healthy adapter. -/
def goodAdapterA : Adapter := fun _ => .ok [101, 102]

/-- Another concrete healthy adapter with an overlapping posting. -/
def goodAdapterB : Adapter := fun _ => .ok [102, 103]

/-- A concrete adapter that always fails to fetch. -/
def failingAdapter : Adapter := fun _ => .error "timeout"

theorem discover_adapter_isolation_witness :
    (discover [("indeed", goodAdapterA), ("broken", failingAdapter),
        ("linkedin", goodAdapterB)] ["dev"] []).1 =
      (discover [("indeed", goodAdapterA), ("linkedin", goodAdapterB)]
        ["dev"] []).1 ∧
    adapterFailures [("indeed", goodAdapterA), ("broken", failingAdapter),
        ("linkedin", goodAdapterB)] "dev" =
      adapterFailures [("indeed", goodAdapterA)] "dev" ++
        ("broken", "timeout") :: adapterFailures [("linkedin", goodAdapterB)] "dev" :=
  ⟨(discover_adapter_isolation [("indeed", goodAdapterA)]
      [("linkedin", goodAdapterB)] "broken" failingAdapter (fun _ => "timeout")
      ["dev"] [] (fun _ _ => rfl)).1,
   (discover_adapter_isolation [("indeed", goodAdapterA)]
      [("linkedin", goodAdapterB)] "broken" failingAdapter (fun _ => "timeout")
      ["dev"] [] (fun _ _ => rfl)).2.2.2 "dev" (by simp)⟩

/-! ## Frontend theorems -/

/-- C8: An auto-apply submission with an empty location field carries the
location value remote both in the backend FormData and in the confirmation
email payload; a non-empty location is forwarded unchanged in both. -/
theorem location_defaults_to_remote (fd : AutoApplyForm) :
    (fd.location = "" → submittedLocation fd = "remote" ∧
      confirmationLocation fd = "remote") ∧
    (fd.location ≠ "" → submittedLocation fd = fd.location ∧
      confirmationLocation fd = fd.location) := by
  constructor
  · intro h
    simp [submittedLocation, confirmationLocation, h]
  · intro h
    simp [submittedLocation, confirmationLocation, h]

/-- A concrete form with the location left empty. -/
def emptyLocForm : AutoApplyForm :=
  { full_name := "Ada L", email := "ada@example.com", job_title := "Engineer",
    location := "", max_applications := 5, schedule_type := "once",
    frequency_days := 7, total_runs := none }

/-- A concrete form with a non-empty location. -/
def lagosForm : AutoApplyForm :=
  { emptyLocForm with location := "Lagos" }

theorem location_defaults_to_remote_witness :
    (submittedLocation emptyLocForm = "remote" ∧
      confirmationLocation emptyLocForm = "remote") ∧
    (submittedLocation lagosForm = "Lagos" ∧
      confirmationLocation lagosForm = "Lagos") :=
  ⟨(location_defaults_to_remote emptyLocForm).1 (by decide),
   (location_defaults_to_remote lagosForm).2 (by decide)⟩

/-- Sorting never changes membership. -/
theorem mem_dashSort (sb : String) (l : List Application) (a : Application) :
    a ∈ dashSort sb l ↔ a ∈ l := by
  unfold dashSort
  split_ifs <;> simp [List.mem_mergeSort]

/-- Every element surviving the filter stage matches the search term (when
non-empty) and carries the selected status (when the filter is not all). -/
theorem mem_dashFilter (apps : List Application) (term statusF : String)
    (a : Application) (ha : a ∈ dashFilter apps term statusF) :
    (term ≠ "" → matchesSearch term a = true) ∧
    (statusF ≠ "all" → a.status = statusF) := by
  unfold dashFilter at ha
  by_cases ht : term = "" <;> by_cases hs : statusF = "all" <;>
    simp [ht, hs, List.mem_filter, beq_iff_eq] at ha <;>
    constructor <;> intro h <;> tauto

/-- C9: Every application displayed by the dashboard matches the non-empty
search term case-insensitively in full name, job title or email, and has
exactly the selected status when the status filter is not the value all;
with sort key newest the displayed list is ordered by creation time
descending, with sort key oldest ascending. -/
theorem dashboard_filter_sort (apps : List Application)
    (term statusF sortBy : String) :
    (∀ a, a ∈ filterAndSortApplications apps term statusF sortBy →
      (term ≠ "" → matchesSearch term a = true) ∧
      (statusF ≠ "all" → a.status = statusF)) ∧
    (filterAndSortApplications apps term statusF "newest").Pairwise
      (fun a b => b.createdAt ≤ a.createdAt) ∧
    (filterAndSortApplications apps term statusF "oldest").Pairwise
      (fun a b => a.createdAt ≤ b.createdAt) := by
  refine ⟨?_, ?_, ?_⟩
  · intro a ha
    rw [filterAndSortApplications, mem_dashSort] at ha
    exact mem_dashFilter apps term statusF a ha
  · have hs := @List.sorted_mergeSort Application
      (fun a b => Nat.ble b.createdAt a.createdAt)
      (fun a b c hab hbc => by
        simp only [Nat.ble_eq] at *
        omega)
      (fun a b => by
        simp only [Nat.ble_eq, Bool.or_eq_true, decide_eq_true_eq]
        omega)
      (dashFilter apps term statusF)
    have hd : filterAndSortApplications apps term statusF "newest" =
        (dashFilter apps term statusF).mergeSort
          (fun a b => Nat.ble b.createdAt a.createdAt) := by
      simp [filterAndSortApplications, dashSort]
    rw [hd]
    exact hs.imp (fun h => by simpa using h)
  · have hs := @List.sorted_mergeSort Application
      (fun a b => Nat.ble a.createdAt b.createdAt)
      (fun a b c hab hbc => by
        simp only [Nat.ble_eq] at *
        omega)
      (fun a b => by
        simp only [Nat.ble_eq, Bool.or_eq_true, decide_eq_true_eq]
        omega)
      (dashFilter apps term statusF)
    have hd : filterAndSortApplications apps term statusF "oldest" =
        (dashFilter apps term statusF).mergeSort
          (fun a b => Nat.ble a.createdAt b.createdAt) := by
      simp [filterAndSortApplications, dashSort]
    rw [hd]
    exact hs.imp (fun h => by simpa using h)

/-- A concrete application row matching the search term dev. -/
def appDev : Application :=
  { full_name := some "Dev One", job_title := some "Backend Developer",
    email := some "dev@example.com", status := "pending", createdAt := 10 }

theorem dashboard_filter_sort_witness :
    appDev.status = "pending" :=
  ((dashboard_filter_sort [appDev] "" "pending" "newest").1 appDev
    (by rw [filterAndSortApplications, mem_dashSort]; simp [dashFilter, appDev])).2
    (by decide)

/-- The Boolean test-email check matches exactly the propositional
description of its four disjuncts. -/
theorem isTestEmail_eq_true_iff (l : EmailLog) :
    isTestEmail l = true ↔
      (l.email_type = some "test" ∨ l.type = some "test" ∨
        (∃ r, l.recipient_email = some r ∧ strIncludes r "test" = true) ∨
        (∃ s, l.subject = some s ∧ strIncludes s.toLower "test" = true)) := by
  unfold isTestEmail optIncludes optIncludesLower
  cases hr : l.recipient_email <;> cases hsu : l.subject <;>
    simp [Bool.or_eq_true, beq_iff_eq, or_assoc]

/-- C10: The monitoring dashboard displays exactly the email-log entries
that are not test emails — an entry whose email type or type field equals
test, whose recipient contains the substring test, or whose subject
contains test case-insensitively is never displayed — and displays them
unchanged and in order (the rendered list is a sublist of the input). -/
theorem email_log_test_filter (logs : List EmailLog) (l : EmailLog) :
    (l ∈ displayedEmailLogs logs ↔
      l ∈ logs ∧ ¬(l.email_type = some "test" ∨ l.type = some "test" ∨
        (∃ r, l.recipient_email = some r ∧ strIncludes r "test" = true) ∨
        (∃ s, l.subject = some s ∧ strIncludes s.toLower "test" = true))) ∧
    List.Sublist (displayedEmailLogs logs) logs := by
  constructor
  · rw [displayedEmailLogs, List.mem_filter]
    constructor
    · rintro ⟨hmem, hb⟩
      refine ⟨hmem, ?_⟩
      rw [← isTestEmail_eq_true_iff]
      simp only [Bool.not_eq_true'] at hb
      simp [hb]
    · rintro ⟨hmem, hni⟩
      refine ⟨hmem, ?_⟩
      rw [← isTestEmail_eq_true_iff] at hni
      simp [Bool.not_eq_true] at hni ⊢
      exact hni
  · exact List.filter_sublist logs

end Automated
